import Mathlib

namespace UnitTracker

/-- JS String.prototype.trim, modelled structurally on the character list so
that it is kernel-computable: drop whitespace from both ends. -/
def jsTrim (s : String) : String :=
  ⟨((s.data.dropWhile Char.isWhitespace).reverse.dropWhile Char.isWhitespace).reverse⟩

/-- JS String.prototype.startsWith, modelled structurally on the character
list. -/
def jsStartsWith (s p : String) : Bool :=
  p.data.isPrefixOf s.data

/-- JS String.prototype.slice from a character index to the end. -/
def jsSlice (s : String) (n : Nat) : String :=
  ⟨s.data.drop n⟩

/-- Raw unit record as it occurs in units_json: the identity fields read by the
canonicalization code in diff_snapshots_to_unit_events.js. A JS field that is
null or absent is modelled as none. -/
structure RawUnit where
  unit_id : Option String
  unit_number : Option String
  deriving DecidableEq

/-- JS truthiness on a string: the empty string is falsy, everything else is
itself. Used to model expressions of the form s or null. -/
def strTruthy (s : String) : Option String :=
  if s = "" then none else some s

/-- JS a or b on nullable strings: a wins unless it is null or the empty
string. -/
def jsOrOpt (a b : Option String) : Option String :=
  match a with
  | some s => if s = "" then b else some s
  | none => b

/-- normalizeUnitKey from diff_snapshots_to_unit_events.js lines 32-47.
Order of the rules: a unit_id already carrying the unit: form wins verbatim,
then a non-empty trimmed unit_number, then a bare source id, else null. -/
def normalizeUnitKey (u : RawUnit) : Option String :=
  let unitId := u.unit_id.getD ""
  let unitNumber := jsTrim (u.unit_number.getD "")
  if jsStartsWith unitId "unit:" then some unitId
  else if unitNumber ≠ "" then some ("unit:" ++ unitNumber)
  else if unitId ≠ "" then some ("id:" ++ unitId)
  else none

/-- unitNumberFromKey from diff_snapshots_to_unit_events.js lines 49-54:
recover the display number from a unit: key, null otherwise. -/
def unitNumberFromKey (unitKey : String) : Option String :=
  if unitKey = "" then none
  else if jsStartsWith unitKey "unit:" then strTruthy (jsSlice unitKey 5)
  else none

/-- Entry stored in the map built by buildMap: the derived display number and
the raw record itself. -/
structure MapEntry where
  unit_number : Option String
  raw : RawUnit
  deriving DecidableEq

/-- Display number computed inside buildMap lines 63-66: the trimmed raw
unit_number if truthy, else the number parsed back out of the key, else null. -/
def buildEntryNumber (u : RawUnit) (key : String) : Option String :=
  match strTruthy (jsTrim (u.unit_number.getD "")) with
  | some n => some n
  | none => unitNumberFromKey key

/-- JS Map.get: first binding for the key, if any. -/
def mapGet : List (String × MapEntry) → String → Option MapEntry
  | [], _ => none
  | p :: m, k => if p.1 = k then some p.2 else mapGet m k

/-- JS Map.set: replace the existing binding in place, else append. -/
def mapSet : List (String × MapEntry) → String → MapEntry → List (String × MapEntry)
  | [], k, v => [(k, v)]
  | p :: m, k, v => if p.1 = k then (k, v) :: m else p :: mapSet m k v

/-- Keys of the map, in insertion order. -/
def mapKeys (m : List (String × MapEntry)) : List String :=
  m.map Prod.fst

/-- Entry that buildMap stores for a keyed record. -/
def buildEntry (u : RawUnit) (key : String) : MapEntry :=
  ⟨buildEntryNumber u key, u⟩

/-- Body of the buildMap loop (lines 59-68), with the derived key passed
explicitly: none means the record is skipped. -/
def buildMapInsert (m : List (String × MapEntry)) (u : RawUnit) :
    Option String → List (String × MapEntry)
  | none => m
  | some key => mapSet m key (buildEntry u key)

/-- One iteration of the buildMap loop from diff_snapshots_to_unit_events.js
lines 59-68: derive the key, skip the record when it is null, else set the
entry into the map. -/
def buildMapStep (m : List (String × MapEntry)) (u : RawUnit) : List (String × MapEntry) :=
  buildMapInsert m u (normalizeUnitKey u)

/-- buildMap from diff_snapshots_to_unit_events.js lines 56-71. -/
def buildMap (units : List RawUnit) : List (String × MapEntry) :=
  units.foldl buildMapStep []

/-- JS new Set over a list: first occurrences, in insertion order. -/
def setOfList (l : List String) : List String :=
  l.foldl (fun acc k => if acc.contains k then acc else acc ++ [k]) []

/-- diffKeys from diff_snapshots_to_unit_events.js lines 73-84: appeared are
current keys missing from the previous key set, disappeared the converse. -/
def diffKeys (prevMap currMap : List (String × MapEntry)) : List String × List String :=
  let prevKeys := setOfList (mapKeys prevMap)
  let currKeys := setOfList (mapKeys currMap)
  (currKeys.filter (fun k => !(prevKeys.contains k)),
   prevKeys.filter (fun k => !(currKeys.contains k)))

/-- unitKeyForEvents from run_rentcafe_all_with_events.js lines 214-216:
the first truthy of unit_id and unit_number, trimmed, empty meaning null. -/
def unitKeyForEvents (u : RawUnit) : Option String :=
  strTruthy (jsTrim ((jsOrOpt u.unit_id (jsOrOpt u.unit_number (some ""))).getD ""))

/-- diffUnitKeys from run_rentcafe_all_with_events.js lines 218-226. -/
def diffUnitKeys (prevUnits currUnits : List RawUnit) : List String × List String :=
  let prevKeys := setOfList (prevUnits.filterMap unitKeyForEvents)
  let currKeys := setOfList (currUnits.filterMap unitKeyForEvents)
  (currKeys.filter (fun k => !(prevKeys.contains k)),
   prevKeys.filter (fun k => !(currKeys.contains k)))

theorem setOfList_aux (l : List String) (acc : List String) (k : String) :
    k ∈ l.foldl (fun acc k => if acc.contains k then acc else acc ++ [k]) acc ↔
      k ∈ acc ∨ k ∈ l := by
  induction l generalizing acc with
  | nil => simp
  | cons x xs ih =>
    simp only [List.foldl_cons]
    by_cases hx : acc.contains x = true
    · rw [if_pos hx, ih]
      have hmem : x ∈ acc := by simpa using hx
      constructor
      · rintro (h | h)
        · exact Or.inl h
        · exact Or.inr (List.mem_cons_of_mem _ h)
      · rintro (h | h)
        · exact Or.inl h
        · rcases List.mem_cons.mp h with h | h
          · exact Or.inl (h ▸ hmem)
          · exact Or.inr h
    · rw [if_neg hx, ih]
      simp only [List.mem_append, List.mem_singleton, List.mem_cons]
      tauto

theorem mem_setOfList (l : List String) (k : String) :
    k ∈ setOfList l ↔ k ∈ l :=
  (setOfList_aux l [] k).trans (by simp)

/-- Shared shape of every diff variant in the repository, on plain key lists. -/
theorem diff_core (A B : List String) (k : String) :
    (k ∈ (setOfList B).filter (fun k => !((setOfList A).contains k)) ↔ k ∈ B ∧ k ∉ A) ∧
    (k ∈ (setOfList A).filter (fun k => !((setOfList B).contains k)) ↔ k ∈ A ∧ k ∉ B) := by
  constructor
  · rw [List.mem_filter]
    simp [mem_setOfList]
  · rw [List.mem_filter]
    simp [mem_setOfList]

theorem mem_mapKeys_mapSet (m : List (String × MapEntry)) (k k' : String) (v : MapEntry) :
    k' ∈ mapKeys (mapSet m k v) ↔ k' ∈ mapKeys m ∨ k' = k := by
  induction m with
  | nil => simp [mapSet, mapKeys]
  | cons p m ih =>
    by_cases h : p.1 = k
    · simp only [mapSet, h, if_true, mapKeys, List.map_cons, List.mem_cons]
      subst h
      tauto
    · simp only [mapSet, h, if_false, mapKeys, List.map_cons, List.mem_cons]
      rw [show (mapSet m k v).map Prod.fst = mapKeys (mapSet m k v) from rfl, ih]
      tauto

theorem mem_mapKeys_buildMap_aux (us : List RawUnit) (m : List (String × MapEntry)) (k : String) :
    k ∈ mapKeys (us.foldl buildMapStep m) ↔
      k ∈ mapKeys m ∨ ∃ u ∈ us, normalizeUnitKey u = some k := by
  induction us generalizing m with
  | nil => simp
  | cons u us ih =>
    simp only [List.foldl_cons, ih, List.mem_cons]
    cases h : normalizeUnitKey u with
    | none =>
      rw [show buildMapStep m u = buildMapInsert m u (normalizeUnitKey u) from rfl, h]
      simp only [buildMapInsert]
      constructor
      · rintro (hm | ⟨u', hu', hk⟩)
        · exact Or.inl hm
        · exact Or.inr ⟨u', Or.inr hu', hk⟩
      · rintro (hm | ⟨u', hu' | hu', hk⟩)
        · exact Or.inl hm
        · subst hu'; rw [h] at hk; cases hk
        · exact Or.inr ⟨u', hu', hk⟩
    | some k0 =>
      rw [show buildMapStep m u = buildMapInsert m u (normalizeUnitKey u) from rfl, h]
      simp only [buildMapInsert, mem_mapKeys_mapSet]
      constructor
      · rintro ((hm | hk0) | ⟨u', hu', hk⟩)
        · exact Or.inl hm
        · exact Or.inr ⟨u, Or.inl rfl, by rw [h, hk0]⟩
        · exact Or.inr ⟨u', Or.inr hu', hk⟩
      · rintro (hm | ⟨u', hu' | hu', hk⟩)
        · exact Or.inl (Or.inl hm)
        · subst hu'; rw [h] at hk
          exact Or.inl (Or.inr (Option.some_injective _ hk).symm)
        · exact Or.inr ⟨u', hu', hk⟩

theorem mem_mapKeys_buildMap (us : List RawUnit) (k : String) :
    k ∈ mapKeys (buildMap us) ↔ ∃ u ∈ us, normalizeUnitKey u = some k := by
  rw [buildMap, mem_mapKeys_buildMap_aux]
  simp [mapKeys]

theorem diff_abstract (a d A B : Prop) (ha : a ↔ B ∧ ¬ A) (hd : d ↔ A ∧ ¬ B) :
    (¬ (a ∧ d)) ∧ (((A ∧ ¬ d) ∨ a) ↔ B) := by
  constructor
  · rintro ⟨h1, h2⟩
    exact ((hd.mp h2).2 (ha.mp h1).1)
  · rw [ha, hd]
    tauto

/-- C1: for every pair of unit lists, the diff engine computes appeared as the
key set of curr minus the key set of prev, disappeared as prev minus curr, the
two are disjoint, and removing disappeared from prev and adding appeared gives
exactly the key set of curr; this holds for the map-based diffKeys of the
snapshot differ and for the list-based diffUnitKeys of the RentCafe runner. -/
theorem diff_engine_set_algebra (prevUs currUs : List RawUnit) (k : String) :
    (k ∈ (diffKeys (buildMap prevUs) (buildMap currUs)).1 ↔
      (∃ u ∈ currUs, normalizeUnitKey u = some k) ∧ ¬ ∃ u ∈ prevUs, normalizeUnitKey u = some k) ∧
    (k ∈ (diffKeys (buildMap prevUs) (buildMap currUs)).2 ↔
      (∃ u ∈ prevUs, normalizeUnitKey u = some k) ∧ ¬ ∃ u ∈ currUs, normalizeUnitKey u = some k) ∧
    (¬ (k ∈ (diffKeys (buildMap prevUs) (buildMap currUs)).1 ∧
        k ∈ (diffKeys (buildMap prevUs) (buildMap currUs)).2)) ∧
    ((((∃ u ∈ prevUs, normalizeUnitKey u = some k) ∧
        k ∉ (diffKeys (buildMap prevUs) (buildMap currUs)).2) ∨
      k ∈ (diffKeys (buildMap prevUs) (buildMap currUs)).1) ↔
      ∃ u ∈ currUs, normalizeUnitKey u = some k) ∧
    (k ∈ (diffUnitKeys prevUs currUs).1 ↔
      (∃ u ∈ currUs, unitKeyForEvents u = some k) ∧ ¬ ∃ u ∈ prevUs, unitKeyForEvents u = some k) ∧
    (k ∈ (diffUnitKeys prevUs currUs).2 ↔
      (∃ u ∈ prevUs, unitKeyForEvents u = some k) ∧ ¬ ∃ u ∈ currUs, unitKeyForEvents u = some k) ∧
    (¬ (k ∈ (diffUnitKeys prevUs currUs).1 ∧ k ∈ (diffUnitKeys prevUs currUs).2)) ∧
    ((((∃ u ∈ prevUs, unitKeyForEvents u = some k) ∧ k ∉ (diffUnitKeys prevUs currUs).2) ∨
      k ∈ (diffUnitKeys prevUs currUs).1) ↔
      ∃ u ∈ currUs, unitKeyForEvents u = some k) := by
  have hmapP := mem_mapKeys_buildMap prevUs k
  have hmapC := mem_mapKeys_buildMap currUs k
  have h1 := diff_core (mapKeys (buildMap prevUs)) (mapKeys (buildMap currUs)) k
  have h2 := diff_core (prevUs.filterMap unitKeyForEvents) (currUs.filterMap unitKeyForEvents) k
  have hfP : k ∈ prevUs.filterMap unitKeyForEvents ↔ ∃ u ∈ prevUs, unitKeyForEvents u = some k := by
    simp [List.mem_filterMap]
  have hfC : k ∈ currUs.filterMap unitKeyForEvents ↔ ∃ u ∈ currUs, unitKeyForEvents u = some k := by
    simp [List.mem_filterMap]
  have e1 : (diffKeys (buildMap prevUs) (buildMap currUs)).1 =
      (setOfList (mapKeys (buildMap currUs))).filter
        (fun k => !((setOfList (mapKeys (buildMap prevUs))).contains k)) := rfl
  have e2 : (diffKeys (buildMap prevUs) (buildMap currUs)).2 =
      (setOfList (mapKeys (buildMap prevUs))).filter
        (fun k => !((setOfList (mapKeys (buildMap currUs))).contains k)) := rfl
  have e3 : (diffUnitKeys prevUs currUs).1 =
      (setOfList (currUs.filterMap unitKeyForEvents)).filter
        (fun k => !((setOfList (prevUs.filterMap unitKeyForEvents)).contains k)) := rfl
  have e4 : (diffUnitKeys prevUs currUs).2 =
      (setOfList (prevUs.filterMap unitKeyForEvents)).filter
        (fun k => !((setOfList (currUs.filterMap unitKeyForEvents)).contains k)) := rfl
  rw [e1, e2, e3, e4]
  rw [hfP, hfC] at h2
  rw [hmapP, hmapC] at h1
  have g1 := diff_abstract _ _ _ _ h1.1 h1.2
  have g2 := diff_abstract _ _ _ _ h2.1 h2.2
  exact ⟨h1.1, h1.2, g1.1, g1.2, h2.1, h2.2, g2.1, g2.2⟩

/-- Scenario A of the spec, checked concretely on the embedded engine. -/
theorem diff_scenario_check :
    (diffKeys (buildMap [⟨some "unit:101", some "101"⟩, ⟨some "unit:102", some "102"⟩])
      (buildMap [⟨some "unit:102", some "102"⟩, ⟨some "unit:103", some "103"⟩])) =
      (["unit:103"], ["unit:101"]) := by decide

/-- normalizeUnitNumber from push_prospectportal_snapshot_to_supabase_v2.js
lines 62-65: trim, empty meaning null. -/
def normalizeUnitNumber (x : Option String) : Option String :=
  strTruthy (jsTrim (x.getD ""))

/-- normalizeUnitKeyFromNumber from push_prospectportal_snapshot_to_supabase_v2.js
lines 67-71 (textually identical in the sofi runner): normalize the number and
attach the unit: marker unless it is already present. -/
def normalizeUnitKeyFromNumber (unitNumber : Option String) : Option String :=
  match normalizeUnitNumber unitNumber with
  | none => none
  | some n => some (if jsStartsWith n "unit:" then n else "unit:" ++ n)

/-- Record extracted from a ProspectPortal detail page (the fields of the
extraction result that bear on the claims). -/
structure PPRecord where
  unit_number : String
  available_on : Option String
  deriving DecidableEq

/-- Unit shape pushed by scrapeProspectPortalUnits lines 328-341 (price and
meta, irrelevant to the claims, are omitted). -/
structure PPUnit where
  unit_key : String
  unit_id : String
  unit_number : Option String
  available_on : Option String
  deriving DecidableEq

/-- Key derived for one extracted record (lines 321-322). -/
def ppKey (r : PPRecord) : Option String :=
  normalizeUnitKeyFromNumber (normalizeUnitNumber (some r.unit_number))

/-- Unit built for one keyed extracted record (lines 328-341). -/
def ppUnitOf (r : PPRecord) (k : String) : PPUnit :=
  ⟨k, k, normalizeUnitNumber (some r.unit_number), jsOrOpt r.available_on none⟩

/-- Body of the ProspectPortal record loop, with the derived key passed
explicitly: null keys are skipped, seen keys are skipped, fresh keys are
recorded and their unit pushed. -/
def ppInsert (st : List String × List PPUnit) (r : PPRecord) :
    Option String → List String × List PPUnit
  | none => st
  | some k => if st.1.contains k then st else (st.1 ++ [k], st.2 ++ [ppUnitOf r k])

/-- One iteration of the record loop of scrapeProspectPortalUnits lines
320-342. -/
def ppStep (st : List String × List PPUnit) (r : PPRecord) : List String × List PPUnit :=
  ppInsert st r (ppKey r)

/-- Pure accumulation core of scrapeProspectPortalUnits (the per-record loop of
lines 320-342); page navigation and text extraction are external I/O and feed
the extracted list. -/
def scrapeProspectPortalUnits (extracted : List PPRecord) : List PPUnit :=
  (extracted.foldl ppStep ([], [])).2

theorem buildMapStep_none (m : List (String × MapEntry)) (u : RawUnit)
    (h : normalizeUnitKey u = none) : buildMapStep m u = m := by
  show buildMapInsert m u (normalizeUnitKey u) = m
  rw [h]
  rfl

theorem buildMapStep_some (m : List (String × MapEntry)) (u : RawUnit) (k : String)
    (h : normalizeUnitKey u = some k) : buildMapStep m u = mapSet m k (buildEntry u k) := by
  show buildMapInsert m u (normalizeUnitKey u) = _
  rw [h]
  rfl

theorem ppStep_none (st : List String × List PPUnit) (r : PPRecord)
    (h : ppKey r = none) : ppStep st r = st := by
  show ppInsert st r (ppKey r) = st
  rw [h]
  rfl

theorem ppStep_some (st : List String × List PPUnit) (r : PPRecord) (k : String)
    (h : ppKey r = some k) :
    ppStep st r = if st.1.contains k then st else (st.1 ++ [k], st.2 ++ [ppUnitOf r k]) := by
  show ppInsert st r (ppKey r) = _
  rw [h]
  rfl

/-- C5: a raw record with no derivable unit_key contributes nothing: buildMap
on a list containing it equals buildMap on the list without it, hence every
diff is unchanged; likewise the ProspectPortal scraper drops a record whose
derived key is null before it can reach the pushed unit list. -/
theorem unkeyable_record_dropped (pre post : List RawUnit) (u : RawUnit)
    (h : normalizeUnitKey u = none) (m : List (String × MapEntry))
    (rpre rpost : List PPRecord) (r : PPRecord) (hr : ppKey r = none) :
    buildMap (pre ++ u :: post) = buildMap (pre ++ post) ∧
    diffKeys (buildMap (pre ++ u :: post)) m = diffKeys (buildMap (pre ++ post)) m ∧
    diffKeys m (buildMap (pre ++ u :: post)) = diffKeys m (buildMap (pre ++ post)) ∧
    scrapeProspectPortalUnits (rpre ++ r :: rpost) = scrapeProspectPortalUnits (rpre ++ rpost) := by
  have hb : buildMap (pre ++ u :: post) = buildMap (pre ++ post) := by
    rw [buildMap, buildMap, List.foldl_append, List.foldl_append, List.foldl_cons,
      buildMapStep_none _ _ h]
  refine ⟨hb, by rw [hb], by rw [hb], ?_⟩
  rw [scrapeProspectPortalUnits, scrapeProspectPortalUnits, List.foldl_append,
    List.foldl_append, List.foldl_cons, ppStep_none _ _ hr]

/-- Witness for C5 at a record with a blank unit number and no id. -/
theorem unkeyable_record_dropped_witness :
    buildMap ([] ++ RawUnit.mk none (some " ") :: []) = buildMap ([] ++ []) ∧
    diffKeys (buildMap ([] ++ RawUnit.mk none (some " ") :: [])) [] =
      diffKeys (buildMap ([] ++ [])) [] ∧
    diffKeys [] (buildMap ([] ++ RawUnit.mk none (some " ") :: [])) =
      diffKeys [] (buildMap ([] ++ [])) ∧
    scrapeProspectPortalUnits ([] ++ PPRecord.mk " " none :: []) =
      scrapeProspectPortalUnits ([] ++ []) :=
  unkeyable_record_dropped [] [] ⟨none, some " "⟩ (by decide) [] [] [] ⟨" ", none⟩ (by decide)

/-- C3: two raw records that differ only by surrounding whitespace in the
unit-number field normalize to the same key, stated as: equal identity fields
up to trimming give equal keys, for normalizeUnitKey of the snapshot differ
and for normalizeUnitKeyFromNumber of the ProspectPortal runner. -/
theorem whitespace_insensitive_keys (u1 u2 : RawUnit) (s1 s2 : String)
    (h1 : u1.unit_id = u2.unit_id)
    (h2 : jsTrim (u1.unit_number.getD "") = jsTrim (u2.unit_number.getD ""))
    (h3 : jsTrim s1 = jsTrim s2) :
    normalizeUnitKey u1 = normalizeUnitKey u2 ∧
    normalizeUnitKeyFromNumber (some s1) = normalizeUnitKeyFromNumber (some s2) := by
  constructor
  · simp only [normalizeUnitKey, h1, h2]
  · simp only [normalizeUnitKeyFromNumber, normalizeUnitNumber, Option.getD_some, h3]

/-- Witness for C3 at 217 and padded 217, both mapping to unit:217. -/
theorem whitespace_insensitive_keys_witness :
    normalizeUnitKey ⟨none, some "217"⟩ = normalizeUnitKey ⟨none, some " 217 "⟩ ∧
    normalizeUnitKey ⟨none, some " 217 "⟩ = some "unit:217" ∧
    normalizeUnitKeyFromNumber (some "217") = normalizeUnitKeyFromNumber (some " 217 ") ∧
    normalizeUnitKeyFromNumber (some " 217 ") = some "unit:217" := by
  have h := whitespace_insensitive_keys ⟨none, some "217"⟩ ⟨none, some " 217 "⟩
    "217" " 217 " rfl (by decide) (by decide)
  exact ⟨h.1, by decide, h.2, by decide⟩

theorem jsStartsWith_id_append (x : String) : jsStartsWith ("id:" ++ x) "unit:" = false := by
  rw [jsStartsWith, String.data_append]
  rfl

theorem id_append_ne_empty (x : String) : ("id:" ++ x) ≠ "" := by
  intro h
  have h2 := congrArg String.data h
  rw [String.data_append] at h2
  exact absurd (List.append_eq_nil.mp h2).1 (by decide)

theorem unitNumberFromKey_id_append (x : String) :
    unitNumberFromKey ("id:" ++ x) = none := by
  rw [unitNumberFromKey, if_neg (id_append_ne_empty x)]
  rw [jsStartsWith_id_append]
  simp

/-- C4: the rules of the key normalizer apply in order: a unit_id already in
canonical form is used verbatim, else a non-empty trimmed unit number gives
the unit: key with that number as display number, else a non-empty raw id
gives the id: key with null display number, else the record is unkeyable. -/
theorem key_normalizer_rule_order (u : RawUnit) :
    (jsStartsWith (u.unit_id.getD "") "unit:" = true →
      normalizeUnitKey u = some (u.unit_id.getD "")) ∧
    (jsStartsWith (u.unit_id.getD "") "unit:" = false →
      jsTrim (u.unit_number.getD "") ≠ "" →
      normalizeUnitKey u = some ("unit:" ++ jsTrim (u.unit_number.getD "")) ∧
      buildEntryNumber u ("unit:" ++ jsTrim (u.unit_number.getD "")) =
        some (jsTrim (u.unit_number.getD ""))) ∧
    (jsStartsWith (u.unit_id.getD "") "unit:" = false →
      jsTrim (u.unit_number.getD "") = "" →
      u.unit_id.getD "" ≠ "" →
      normalizeUnitKey u = some ("id:" ++ u.unit_id.getD "") ∧
      buildEntryNumber u ("id:" ++ u.unit_id.getD "") = none) ∧
    (jsStartsWith (u.unit_id.getD "") "unit:" = false →
      jsTrim (u.unit_number.getD "") = "" →
      u.unit_id.getD "" = "" →
      normalizeUnitKey u = none) := by
  refine ⟨?_, ?_, ?_, ?_⟩
  · intro h
    simp only [normalizeUnitKey, h, if_true]
  · intro h ht
    constructor
    · simp only [normalizeUnitKey]
      rw [if_neg (by simp [h]), if_pos ht]
    · simp only [buildEntryNumber, strTruthy, if_neg ht]
  · intro h ht hid
    constructor
    · simp only [normalizeUnitKey]
      rw [if_neg (by simp [h]), if_neg (by simp [ht]), if_pos hid]
    · simp [buildEntryNumber, strTruthy, ht, unitNumberFromKey_id_append]
  · intro h ht hid
    simp only [normalizeUnitKey]
    rw [if_neg (by simp [h]), if_neg (by simp [ht]), if_neg (by simp [hid])]

/-- Witness for C4 exercising the id: fallback rule on a SightMap style id. -/
theorem key_normalizer_rule_order_witness :
    normalizeUnitKey ⟨some "945458", some " "⟩ = some ("id:" ++ "945458") ∧
    buildEntryNumber ⟨some "945458", some " "⟩ ("id:" ++ "945458") = none :=
  (key_normalizer_rule_order ⟨some "945458", some " "⟩).2.2.1 (by decide) (by decide) (by decide)

/-- Row of the unit_events table as inserted by writeEvents. -/
structure EventRow where
  property_id : String
  event_date : String
  unit_key : String
  unit_number : Option String
  event_type : String
  source : String
  deriving DecidableEq

/-- Appeared row built by writeEvents lines 134-144: the display number
prefers the current snapshot entry and falls back to the key parse, with a
final or-null. -/
def appearedRow (source pid eventDate : String) (currMap : List (String × MapEntry))
    (k : String) : EventRow :=
  ⟨pid, eventDate, k,
   jsOrOpt (jsOrOpt ((mapGet currMap k).bind MapEntry.unit_number) (unitNumberFromKey k)) none,
   "appeared", source⟩

/-- Disappeared row built by writeEvents lines 146-157: only the key parse is
used for the display number; the previous snapshot map is not consulted. -/
def disappearedRow (source pid eventDate : String) (k : String) : EventRow :=
  ⟨pid, eventDate, k, jsOrOpt (unitNumberFromKey k) none, "disappeared", source⟩

/-- Rows assembled by writeEvents lines 132-158. -/
def writeEventsRows (source pid eventDate : String) (appearedKeys disappearedKeys : List String)
    (currMap : List (String × MapEntry)) : List EventRow :=
  appearedKeys.map (appearedRow source pid eventDate currMap) ++
    disappearedKeys.map (disappearedRow source pid eventDate)

/-- Filter of the delete in writeEvents lines 123-128: same property, same
event date, same source. -/
def matchesTuple (pid eventDate source : String) (r : EventRow) : Bool :=
  r.property_id == pid && r.event_date == eventDate && r.source == source

/-- writeEvents from diff_snapshots_to_unit_events.js lines 121-166, acting on
the unit_events table modelled as a list of rows: delete the rows matching
the property, date and source, then insert the freshly computed rows. -/
def writeEvents (source pid eventDate : String) (appearedKeys disappearedKeys : List String)
    (currMap : List (String × MapEntry)) (store : List EventRow) : List EventRow :=
  store.filter (fun r => !(matchesTuple pid eventDate source r)) ++
    writeEventsRows source pid eventDate appearedKeys disappearedKeys currMap

theorem writeEventsRows_fields (source pid eventDate : String)
    (app dis : List String) (currMap : List (String × MapEntry)) (r : EventRow)
    (hr : r ∈ writeEventsRows source pid eventDate app dis currMap) :
    r.property_id = pid ∧ r.event_date = eventDate ∧ r.source = source := by
  rcases List.mem_append.mp hr with h | h <;> rcases List.mem_map.mp h with ⟨k, hk, rfl⟩
  · exact ⟨rfl, rfl, rfl⟩
  · exact ⟨rfl, rfl, rfl⟩

theorem writeEventsRows_matches (source pid eventDate : String)
    (app dis : List String) (currMap : List (String × MapEntry)) (r : EventRow)
    (hr : r ∈ writeEventsRows source pid eventDate app dis currMap) :
    matchesTuple pid eventDate source r = true := by
  obtain ⟨h1, h2, h3⟩ := writeEventsRows_fields source pid eventDate app dis currMap r hr
  simp [matchesTuple, h1, h2, h3]

/-- C2: for a fixed property, date and source, writeEvents leaves the stored
rows for that tuple equal to exactly the freshly computed rows, is idempotent
when re-run with the same diff, and leaves rows of any other source
untouched. -/
theorem event_writer_replaces_exactly (source pid eventDate : String)
    (app dis : List String) (currMap : List (String × MapEntry))
    (store : List EventRow) (src2 : String) (hsrc : src2 ≠ source) :
    (writeEvents source pid eventDate app dis currMap store).filter
        (fun r => matchesTuple pid eventDate source r) =
      writeEventsRows source pid eventDate app dis currMap ∧
    writeEvents source pid eventDate app dis currMap
        (writeEvents source pid eventDate app dis currMap store) =
      writeEvents source pid eventDate app dis currMap store ∧
    (writeEvents source pid eventDate app dis currMap store).filter
        (fun r => r.source == src2) =
      store.filter (fun r => r.source == src2) := by
  have hAkill : ∀ l : List EventRow,
      (l.filter (fun r => !(matchesTuple pid eventDate source r))).filter
        (fun r => matchesTuple pid eventDate source r) = [] := by
    intro l
    rw [List.filter_filter]
    apply List.filter_eq_nil_iff.mpr
    intro r _
    cases matchesTuple pid eventDate source r <;> simp
  have hAkeep : ∀ l : List EventRow,
      (l.filter (fun r => !(matchesTuple pid eventDate source r))).filter
        (fun r => !(matchesTuple pid eventDate source r)) =
      l.filter (fun r => !(matchesTuple pid eventDate source r)) := by
    intro l
    rw [List.filter_filter]
    apply List.filter_congr
    intro r _
    cases matchesTuple pid eventDate source r <;> simp
  have hRall : (writeEventsRows source pid eventDate app dis currMap).filter
      (fun r => matchesTuple pid eventDate source r) =
      writeEventsRows source pid eventDate app dis currMap := by
    apply List.filter_eq_self.mpr
    intro r hr
    exact writeEventsRows_matches source pid eventDate app dis currMap r hr
  have hRnone : (writeEventsRows source pid eventDate app dis currMap).filter
      (fun r => !(matchesTuple pid eventDate source r)) = [] := by
    apply List.filter_eq_nil_iff.mpr
    intro r hr
    rw [writeEventsRows_matches source pid eventDate app dis currMap r hr]
    simp
  refine ⟨?_, ?_, ?_⟩
  · simp only [writeEvents]
    rw [List.filter_append, hAkill, hRall, List.nil_append]
  · simp only [writeEvents]
    rw [List.filter_append, hAkeep, hRnone, List.append_nil]
  · simp only [writeEvents]
    rw [List.filter_append]
    have hRsrc : (writeEventsRows source pid eventDate app dis currMap).filter
        (fun r => r.source == src2) = [] := by
      apply List.filter_eq_nil_iff.mpr
      intro r hr
      obtain ⟨_, _, h3⟩ := writeEventsRows_fields source pid eventDate app dis currMap r hr
      simp only [h3]
      simp only [beq_iff_eq]
      intro he
      exact hsrc (he.symm)
    rw [hRsrc, List.append_nil, List.filter_filter]
    apply List.filter_congr
    intro r _
    by_cases h2 : r.source = src2
    · have hm : matchesTuple pid eventDate source r = false := by
        have : (r.source == source) = false := by
          simp only [beq_eq_false_iff_ne, ne_eq]
          rw [h2]
          exact hsrc
        simp [matchesTuple, this]
      simp [hm, h2]
    · have : (r.source == src2) = false := by
        simp only [beq_eq_false_iff_ne, ne_eq]
        exact h2
      simp [this]

/-- Witness for C2 at a concrete store holding one row of another source. -/
theorem event_writer_replaces_exactly_witness :
    (writeEvents "snapshot" "p1" "2026-02-03" ["unit:7"] [] []
        [⟨"p1", "2026-02-03", "unit:9", some "9", "appeared", "scan"⟩]).filter
        (fun r => matchesTuple "p1" "2026-02-03" "snapshot" r) =
      writeEventsRows "snapshot" "p1" "2026-02-03" ["unit:7"] [] [] ∧
    writeEvents "snapshot" "p1" "2026-02-03" ["unit:7"] [] []
        (writeEvents "snapshot" "p1" "2026-02-03" ["unit:7"] [] []
          [⟨"p1", "2026-02-03", "unit:9", some "9", "appeared", "scan"⟩]) =
      writeEvents "snapshot" "p1" "2026-02-03" ["unit:7"] [] []
        [⟨"p1", "2026-02-03", "unit:9", some "9", "appeared", "scan"⟩] ∧
    (writeEvents "snapshot" "p1" "2026-02-03" ["unit:7"] [] []
        [⟨"p1", "2026-02-03", "unit:9", some "9", "appeared", "scan"⟩]).filter
        (fun r => r.source == "scan") =
      [⟨"p1", "2026-02-03", "unit:9", some "9", "appeared", "scan"⟩].filter
        (fun r => r.source == "scan") :=
  event_writer_replaces_exactly "snapshot" "p1" "2026-02-03" ["unit:7"] [] []
    [⟨"p1", "2026-02-03", "unit:9", some "9", "appeared", "scan"⟩] "scan" (by decide)

/-- C6 amended: every row emitted by writeEvents is either an appeared row,
whose unit_number prefers the current snapshot entry for its key and falls
back to parsing the key, or a disappeared row, whose unit_number comes from
the key parse alone — the previous snapshot is never consulted for
disappeared rows. -/
theorem event_row_unit_number_policy (source pid eventDate : String)
    (app dis : List String) (currMap : List (String × MapEntry)) (r : EventRow)
    (hr : r ∈ writeEventsRows source pid eventDate app dis currMap) :
    (r.event_type = "appeared" ∧ r.unit_key ∈ app ∧
      r.unit_number =
        jsOrOpt (jsOrOpt ((mapGet currMap r.unit_key).bind MapEntry.unit_number)
          (unitNumberFromKey r.unit_key)) none) ∨
    (r.event_type = "disappeared" ∧ r.unit_key ∈ dis ∧
      r.unit_number = jsOrOpt (unitNumberFromKey r.unit_key) none) := by
  rcases List.mem_append.mp hr with h | h <;> rcases List.mem_map.mp h with ⟨k, hk, rfl⟩
  · exact Or.inl ⟨rfl, hk, rfl⟩
  · exact Or.inr ⟨rfl, hk, rfl⟩

/-- Witness for the amended C6 at a single appeared key. -/
theorem event_row_unit_number_policy_witness :
    ((appearedRow "snapshot" "p1" "2026-02-03" [] "unit:5").event_type = "appeared" ∧
      (appearedRow "snapshot" "p1" "2026-02-03" [] "unit:5").unit_key ∈ ["unit:5"] ∧
      (appearedRow "snapshot" "p1" "2026-02-03" [] "unit:5").unit_number =
        jsOrOpt (jsOrOpt ((mapGet []
            (appearedRow "snapshot" "p1" "2026-02-03" [] "unit:5").unit_key).bind
            MapEntry.unit_number)
          (unitNumberFromKey (appearedRow "snapshot" "p1" "2026-02-03" [] "unit:5").unit_key))
          none) ∨
    ((appearedRow "snapshot" "p1" "2026-02-03" [] "unit:5").event_type = "disappeared" ∧
      (appearedRow "snapshot" "p1" "2026-02-03" [] "unit:5").unit_key ∈ ([] : List String) ∧
      (appearedRow "snapshot" "p1" "2026-02-03" [] "unit:5").unit_number =
        jsOrOpt (unitNumberFromKey (appearedRow "snapshot" "p1" "2026-02-03" [] "unit:5").unit_key)
          none) :=
  event_row_unit_number_policy "snapshot" "p1" "2026-02-03" ["unit:5"] [] []
    (appearedRow "snapshot" "p1" "2026-02-03" [] "unit:5") (by decide)

/-- C6 as stated is false: the previous snapshot holds a unit whose key is
unit:A and whose display number is B102; the unit disappears, and the claim
requires the emitted row to prefer that previous-snapshot display number
B102, but writeEvents builds the disappeared row from the key parse alone and
stores A. -/
theorem disappeared_row_ignores_prev_snapshot :
    (writeEventsRows "snapshot" "p1" "2026-02-03"
        (diffKeys (buildMap [⟨some "unit:A", some "B102"⟩]) (buildMap [])).1
        (diffKeys (buildMap [⟨some "unit:A", some "B102"⟩]) (buildMap [])).2
        (buildMap [])).map EventRow.unit_number = [some "A"] ∧
    (mapGet (buildMap [⟨some "unit:A", some "B102"⟩]) "unit:A").bind MapEntry.unit_number =
      some "B102" ∧
    (some "A" : Option String) ≠ some "B102" := by decide

/-- Snapshot row of unit_snapshots: the date and the decoded units_json. -/
structure Snapshot where
  snapshot_date : String
  units : List RawUnit
  deriving DecidableEq

/-- units_json of the previous snapshot in runOneProperty line 320 of
run_rentcafe_all_with_events.js: null when getPreviousSnapshot found no
strictly earlier row, giving the empty baseline. -/
def rcPrevUnits : Option Snapshot → List RawUnit
  | none => []
  | some s => s.units

/-- Per-property behavior of the snapshot differ main loop,
diff_snapshots_to_unit_events.js lines 181-197: given the property snapshots
ordered most recent first, fewer than two snapshots means skip (none: no diff
computed, no events written); otherwise the two most recent are mapped and
diffed. -/
def diffScriptStep : List Snapshot → Option (List String × List String)
  | latest :: prev :: _ => some (diffKeys (buildMap prev.units) (buildMap latest.units))
  | _ => none

/-- C7 amended: in the RentCafe pipeline a missing prior snapshot gives the
empty baseline, so every current unit key is reported appeared and the
disappeared set is empty; the standalone snapshot differ instead skips any
property with fewer than two stored snapshots, computing no diff at all. -/
theorem first_run_empty_baseline (curr : List RawUnit) (prev : Option Snapshot)
    (hprev : prev = none) (snaps : List Snapshot) (hsnaps : snaps.length < 2) :
    rcPrevUnits prev = [] ∧
    (diffUnitKeys (rcPrevUnits prev) curr).2 = [] ∧
    (∀ u ∈ curr, ∀ k, unitKeyForEvents u = some k →
      k ∈ (diffUnitKeys (rcPrevUnits prev) curr).1) ∧
    diffScriptStep snaps = none := by
  subst hprev
  refine ⟨rfl, rfl, ?_, ?_⟩
  · intro u hu k hk
    have e : (diffUnitKeys (rcPrevUnits none) curr).1 =
        (setOfList (curr.filterMap unitKeyForEvents)).filter
          (fun k => !((setOfList (([] : List RawUnit).filterMap unitKeyForEvents)).contains k)) :=
      rfl
    rw [e, List.mem_filter]
    constructor
    · rw [mem_setOfList]
      exact List.mem_filterMap.mpr ⟨u, hu, hk⟩
    · rfl
  · match snaps, hsnaps with
    | [], _ => rfl
    | [s], _ => rfl
    | a :: b :: t, h => exact absurd h (by simp only [List.length_cons]; omega)

/-- Witness for the amended C7 on a one-unit first run. -/
theorem first_run_empty_baseline_witness :
    rcPrevUnits none = [] ∧
    (diffUnitKeys (rcPrevUnits none) [⟨some "unit:217", some "217"⟩]).2 = [] ∧
    (∀ u ∈ [(⟨some "unit:217", some "217"⟩ : RawUnit)], ∀ k, unitKeyForEvents u = some k →
      k ∈ (diffUnitKeys (rcPrevUnits none) [⟨some "unit:217", some "217"⟩]).1) ∧
    diffScriptStep [] = none :=
  first_run_empty_baseline [⟨some "unit:217", some "217"⟩] none rfl [] (by decide)

/-- C7 as stated is false for the standalone snapshot differ: a property whose
only snapshot is the current one (no prior snapshot) is skipped — no diff is
computed and no key is reported as appeared, where the claim requires
unit:217 to be reported appeared against the empty baseline. -/
theorem first_run_skipped_by_differ :
    diffScriptStep [⟨"2026-02-03", [⟨some "unit:217", some "217"⟩]⟩] = none ∧
    ¬ ∃ d : List String × List String,
        diffScriptStep [⟨"2026-02-03", [⟨some "unit:217", some "217"⟩]⟩] = some d ∧
        "unit:217" ∈ d.1 := by
  refine ⟨rfl, ?_⟩
  rintro ⟨d, hd, _⟩
  rw [show diffScriptStep [⟨"2026-02-03", [⟨some "unit:217", some "217"⟩]⟩] = none from rfl] at hd
  cases hd

theorem mapGet_mapSet_self (m : List (String × MapEntry)) (k : String) (v : MapEntry) :
    mapGet (mapSet m k v) k = some v := by
  induction m with
  | nil => simp [mapSet, mapGet]
  | cons p m ih =>
    by_cases h : p.1 = k
    · rw [mapSet]
      rw [if_pos h, mapGet, if_pos rfl]
    · rw [mapSet]
      rw [if_neg h, mapGet, if_neg h, ih]

theorem ppFold_seen (rs : List PPRecord) (st : List String × List PPUnit) (k : String)
    (hseen : k ∈ st.1) :
    (rs.foldl ppStep st).2.filter (fun v => v.unit_key == k) =
      st.2.filter (fun v => v.unit_key == k) ∧
    k ∈ (rs.foldl ppStep st).1 := by
  induction rs generalizing st with
  | nil => exact ⟨rfl, hseen⟩
  | cons r rs ih =>
    rw [List.foldl_cons]
    cases h : ppKey r with
    | none =>
      rw [ppStep_none _ _ h]
      exact ih st hseen
    | some k0 =>
      rw [ppStep_some _ _ _ h]
      by_cases hc : st.1.contains k0 = true
      · rw [if_pos hc]
        exact ih st hseen
      · rw [if_neg hc]
        have hne : k0 ≠ k := by
          intro he
          subst he
          exact hc (by simpa using hseen)
        have hrec := ih (st.1 ++ [k0], st.2 ++ [ppUnitOf r k0]) (by simp [hseen])
        refine ⟨?_, hrec.2⟩
        rw [hrec.1]
        show (st.2 ++ [ppUnitOf r k0]).filter (fun v => v.unit_key == k) =
          st.2.filter (fun v => v.unit_key == k)
        rw [List.filter_append]
        have : ((ppUnitOf r k0).unit_key == k) = false := by
          simp only [ppUnitOf, beq_eq_false_iff_ne, ne_eq]
          exact hne
        simp [this]

/-- C8 amended: for records that normalize to the same unit_key, buildMap of
the snapshot differ keeps the LAST record seen (Map.set overwrites the
binding), so the built map holds the last record and its fields; the scraper
dedup of scrapeProspectPortalUnits keeps the FIRST record seen for a key and
discards later ones. -/
theorem duplicate_key_policy (us : List RawUnit) (u : RawUnit) (k : String)
    (hk : normalizeUnitKey u = some k)
    (r : PPRecord) (rs : List PPRecord) (k2 : String) (hk2 : ppKey r = some k2) :
    mapGet (buildMap (us ++ [u])) k = some (buildEntry u k) ∧
    (scrapeProspectPortalUnits (r :: rs)).filter (fun v => v.unit_key == k2) =
      [ppUnitOf r k2] := by
  constructor
  · rw [buildMap, List.foldl_append, List.foldl_cons, List.foldl_nil,
      buildMapStep_some _ _ _ hk, mapGet_mapSet_self]
  · rw [scrapeProspectPortalUnits, List.foldl_cons, ppStep_some _ _ _ hk2]
    rw [if_neg (by simp)]
    have h0 := ppFold_seen rs ((([] : List String) ++ [k2]),
      (([] : List PPUnit) ++ [ppUnitOf r k2])) k2 (by simp)
    rw [h0.1]
    show ([ppUnitOf r k2].filter (fun v => v.unit_key == k2)) = [ppUnitOf r k2]
    have : ((ppUnitOf r k2).unit_key == k2) = true := by
      simp [ppUnitOf]
    simp [List.filter, this]

/-- Witness for the amended C8: appending a second record with an existing key
overwrites the buildMap entry, while a later ProspectPortal record with a
seen key is discarded. -/
theorem duplicate_key_policy_witness :
    mapGet (buildMap ([⟨some "unit:1", some "A"⟩] ++ [⟨some "unit:1", some "B"⟩])) "unit:1" =
      some (buildEntry ⟨some "unit:1", some "B"⟩ "unit:1") ∧
    (scrapeProspectPortalUnits [⟨"7", some "Available"⟩, ⟨"7", some "Now"⟩]).filter
        (fun v => v.unit_key == "unit:7") =
      [ppUnitOf ⟨"7", some "Available"⟩ "unit:7"] :=
  duplicate_key_policy [⟨some "unit:1", some "A"⟩] ⟨some "unit:1", some "B"⟩ "unit:1"
    (by decide) ⟨"7", some "Available"⟩ [⟨"7", some "Now"⟩] "unit:7" (by decide)

/-- C8 as stated is false for buildMap: two records share key unit:1, the
first with display number A, the second with B; the claim requires the built
map to keep the first record (number A), but Map.set overwrites and the map
holds the second record (number B). -/
theorem buildMap_keeps_last_record :
    mapGet (buildMap [⟨some "unit:1", some "A"⟩, ⟨some "unit:1", some "B"⟩]) "unit:1" =
      some ⟨some "B", ⟨some "unit:1", some "B"⟩⟩ ∧
    (some (⟨some "B", ⟨some "unit:1", some "B"⟩⟩ : MapEntry) ≠
      some ⟨some "A", ⟨some "unit:1", some "A"⟩⟩) := by decide

/-- Control flow of the per-property loop of the snapshot differ
(diff_snapshots_to_unit_events.js main, lines 179-218): the whole body runs
inside try/catch, so a failing property only logs and the loop continues with
the store unchanged by that property. The body — snapshot reads, the diff and
the event write, all database I/O — is abstracted as step. -/
def runBatchCaught (step : String → List EventRow → Except String (List EventRow)) :
    List String → List EventRow → List EventRow
  | [], store => store
  | p :: ps, store =>
    match step p store with
    | .ok store2 => runBatchCaught step ps store2
    | .error _ => runBatchCaught step ps store

/-- Control flow of the Mode B all-properties loop of
run_rentcafe_all_with_events.js main, lines 384-387: runOneProperty is
awaited with no try/catch, so a rejection propagates out of the loop to the
final catch of main and the batch stops; remaining properties never run. -/
def runBatchUncaught (step : String → List EventRow → Except String (List EventRow)) :
    List String → List EventRow → Except String (List EventRow)
  | [], store => .ok store
  | p :: ps, store =>
    match step p store with
    | .ok store2 => runBatchUncaught step ps store2
    | .error e => .error e

/-- C9 amended: the snapshot differ batch isolates a per-property failure —
the loop continues with every remaining property and the failing property
leaves the store untouched — whereas the RentCafe Mode B batch has no
per-property catch, so the first failing property aborts the whole batch and
the remaining properties are never processed. -/
theorem batch_failure_isolation (step : String → List EventRow → Except String (List EventRow))
    (p : String) (ps : List String) (store : List EventRow) (e : String)
    (h : step p store = .error e) :
    runBatchCaught step (p :: ps) store = runBatchCaught step ps store ∧
    runBatchUncaught step (p :: ps) store = .error e := by
  constructor
  · show (match step p store with
      | .ok store2 => runBatchCaught step ps store2
      | .error _ => runBatchCaught step ps store) = runBatchCaught step ps store
    rw [h]
  · show (match step p store with
      | .ok store2 => runBatchUncaught step ps store2
      | .error e => .error e) = Except.error e
    rw [h]

/-- Witness for the amended C9 at a concrete failing step. -/
theorem batch_failure_isolation_witness :
    runBatchCaught
        (fun p store => if p = "bad" then Except.error "boom"
          else Except.ok (store ++ [⟨p, "d", "unit:1", some "1", "appeared", "s"⟩]))
        ["bad", "good"] [] =
      runBatchCaught
        (fun p store => if p = "bad" then Except.error "boom"
          else Except.ok (store ++ [⟨p, "d", "unit:1", some "1", "appeared", "s"⟩]))
        ["good"] [] ∧
    runBatchUncaught
        (fun p store => if p = "bad" then Except.error "boom"
          else Except.ok (store ++ [⟨p, "d", "unit:1", some "1", "appeared", "s"⟩]))
        ["bad", "good"] [] = Except.error "boom" :=
  batch_failure_isolation
    (fun p store => if p = "bad" then Except.error "boom"
      else Except.ok (store ++ [⟨p, "d", "unit:1", some "1", "appeared", "s"⟩]))
    "bad" ["good"] [] "boom" rfl

/-- C9 as stated is false for the RentCafe all-properties batch: with two
properties where the first fails, the uncaught loop returns the error — the
batch unwinds and the second property is never processed — while the caught
loop of the snapshot differ processes the second property and records its
row. -/
theorem rentcafe_batch_unwinds_on_failure :
    runBatchUncaught
        (fun p store => if p = "bad" then Except.error "boom"
          else Except.ok (store ++ [⟨p, "d", "unit:1", some "1", "appeared", "s"⟩]))
        ["bad", "good"] [] = Except.error "boom" ∧
    runBatchCaught
        (fun p store => if p = "bad" then Except.error "boom"
          else Except.ok (store ++ [⟨p, "d", "unit:1", some "1", "appeared", "s"⟩]))
        ["bad", "good"] [] = [⟨"good", "d", "unit:1", some "1", "appeared", "s"⟩] := by
  constructor
  · rfl
  · rfl

/-- Persisted snapshot unit as re-read by the ProspectPortal runner: the
stored canonical key and the raw identity fields. -/
structure StoredUnit where
  unit_key : Option String
  unit_id : Option String
  unit_number : Option String
  deriving DecidableEq

/-- Re-derivation of unit_key for persisted snapshot units in
push_prospectportal_snapshot_to_supabase_v2.js lines 419-431: a stored
unit_key is used verbatim, else the stored number is renormalized, else a
unit_id already in canonical form is used. -/
def ppPrevUnitKey (u : StoredUnit) : Option String :=
  jsOrOpt u.unit_key
    (jsOrOpt (normalizeUnitKeyFromNumber u.unit_number)
      (match u.unit_id with
       | some i => if jsStartsWith i "unit:" then some i else none
       | none => none))

/-- C10: key normalization is idempotent on already-canonical input: a number
field already carrying a trimmed unit: key is returned unchanged by
normalizeUnitKeyFromNumber (no double prefix); normalizeUnitKey returns a
canonical unit_id verbatim; and re-reading a persisted snapshot preserves a
stored non-empty unit_key verbatim. -/
theorem key_normalization_idempotent (s : String) (h1 : jsStartsWith s "unit:" = true)
    (h2 : jsTrim s = s) (u : RawUnit) (k : String) (hu : u.unit_id = some k)
    (hk : jsStartsWith k "unit:" = true) (v : StoredUnit) (k2 : String)
    (hv : v.unit_key = some k2) (hk2 : k2 ≠ "") :
    normalizeUnitKeyFromNumber (some s) = some s ∧
    normalizeUnitKey u = some k ∧
    ppPrevUnitKey v = some k2 := by
  have hs : s ≠ "" := by
    intro he
    subst he
    rw [show jsStartsWith "" "unit:" = false from rfl] at h1
    cases h1
  refine ⟨?_, ?_, ?_⟩
  · rw [normalizeUnitKeyFromNumber, normalizeUnitNumber, Option.getD_some, h2,
      strTruthy, if_neg hs]
    show some (if jsStartsWith s "unit:" = true then s else "unit:" ++ s) = some s
    rw [if_pos h1]
  · simp only [normalizeUnitKey, hu, Option.getD_some]
    rw [if_pos hk]
  · rw [ppPrevUnitKey, hv, jsOrOpt, if_neg hk2]

/-- Witness for C10 at unit:217: normalizing again yields unit:217, not
unit:unit:217. -/
theorem key_normalization_idempotent_witness :
    (normalizeUnitKeyFromNumber (some "unit:217") = some "unit:217" ∧
      normalizeUnitKey ⟨some "unit:217", none⟩ = some "unit:217" ∧
      ppPrevUnitKey ⟨some "unit:217", none, none⟩ = some "unit:217") ∧
    normalizeUnitKeyFromNumber (some "unit:217") ≠ some "unit:unit:217" :=
  ⟨key_normalization_idempotent "unit:217" (by decide) (by decide)
      ⟨some "unit:217", none⟩ "unit:217" rfl (by decide)
      ⟨some "unit:217", none, none⟩ "unit:217" rfl (by decide),
    by decide⟩

end UnitTracker
